import Mathlib

/-
Verification of the lens-profile routines of jaxtronomy
(`jaxtronomy/LensModel/Profiles/gaussian.py` and
`jaxtronomy/LensModel/Profiles/sis.py`).

Modelling conventions.

* IEEE double-precision values are modelled by real numbers (`ℝ`).
* A division whose denominator is zero produces NaN (for `0/0`) or ±Inf
  in the source's array arithmetic; both are non-finite values that
  poison every arithmetic operation they subsequently take part in.
  We model every source-level division by `pdiv : ℝ → ℝ → Option ℝ`,
  where `none` stands for such a non-finite value, and thread `none`
  through the computations exactly as NaN/Inf propagate.  A result
  `some v` asserts that the source computes the finite value `v`.
* `jnp.where(cond, a, b)` selects by value (the discarded branch is
  evaluated but thrown away), so it is modelled by `if cond then a else b`
  on the already-computed values.
* `lax.fori_loop(0, 200, body, init)` is the left-to-right fold of `body`
  over the indices `0, 1, ..., 199` starting from `init`; it is modelled
  by `List.foldl` over `List.range 200`.
* Batched arrays are modelled by `List ℝ` (all array operations in
  `_num_integral` are elementwise, with scalars broadcast).
* Python name resolution in `sis.py` is modelled explicitly: the module's
  global namespace is the list of names actually bound at module level,
  and evaluating an expression that mentions an unbound name produces
  `PyResult.nameError` with that name, as the interpreter would.
-/

open scoped Classical

/-- Guarded division: `pdiv a b` is the finite value `a / b` when `b ≠ 0`,
and `none` (a NaN/Inf, in IEEE terms) when `b = 0`. -/
noncomputable def pdiv (a b : ℝ) : Option ℝ :=
  if b = 0 then none else some (a / b)

lemma pdiv_of_ne (a : ℝ) {b : ℝ} (hb : b ≠ 0) : pdiv a b = some (a / b) :=
  if_neg hb

lemma pdiv_zero_den (a : ℝ) : pdiv a 0 = none := if_pos rfl

/-! ## The quadrature kernel `Gaussian._num_integral` -/

/-- One step of the `lax.fori_loop` body `trapezoidal_sum` in
`Gaussian._num_integral` (gaussian.py lines 79-88), for a single array
element whose radius is `r`.  `val` is the running accumulator; a `none`
accumulator (NaN) stays `none`, as NaN propagates through `+`.
The `jnp.where(x_left == 0, 0, ...)` guard is the `if` on `x_left`;
there is no guard on `x_right`, so the division by `x_right` is a `pdiv`
and yields `none` (NaN, from `0/0`) whenever `x_right = 0`. -/
noncomputable def trapezoidal_step (r c : ℝ) (i : ℕ) (val : Option ℝ) : Option ℝ :=
  match val with
  | none => none
  | some s =>
    let dx := r / 200
    let x_left := dx * (i : ℝ)
    let x_right := dx * ((i : ℝ) + 1)
    let y_left := if x_left = 0 then (0 : ℝ)
      else (1 - Real.exp (-c * x_left ^ 2)) / x_left
    match pdiv (1 - Real.exp (-c * x_right ^ 2)) x_right with
    | none => none
    | some y_right => some (s + (y_left + y_right) / 2 * dx)

/-- `Gaussian._num_integral(r, c)` for a single array element: the 200-step
`lax.fori_loop` of `trapezoidal_sum` seeded with `jnp.zeros_like(r)`,
i.e. with the finite value `0`. -/
noncomputable def num_integral (r c : ℝ) : Option ℝ :=
  (List.range 200).foldl (fun val i => trapezoidal_step r c i val) (some 0)

/-- The integrand `f(x) = (1 - exp(-c x^2))/x`, with the value at `x = 0`
replaced by the limit `0` (transcribed from claim C2's description of the
trapezoidal sum). -/
noncomputable def integrand (c x : ℝ) : ℝ :=
  if x = 0 then (0 : ℝ) else (1 - Real.exp (-c * x ^ 2)) / x

/-- The `i`-th trapezoidal term `(f(i·r/N) + f((i+1)·r/N))/2 · (r/N)` with
`N = 200` (transcribed from claim C2's description). -/
noncomputable def trapTerm (r c : ℝ) (i : ℕ) : ℝ :=
  (integrand c ((i : ℝ) * r / 200) + integrand c (((i : ℝ) + 1) * r / 200))
    / 2 * (r / 200)

/-- The composite trapezoidal sum described by claim C2: the left-to-right
fold of the terms `trapTerm r c i` for `i = 0..199`, starting from `0`. -/
noncomputable def trapSum (r c : ℝ) : ℝ :=
  (List.range 200).foldl (fun s i => s + trapTerm r c i) 0

/-- Order on possibly-NaN values, IEEE style: `a ≤ b` holds only when both
sides are actual finite values that compare accordingly (any comparison
against NaN is false). -/
def optLe (a b : Option ℝ) : Prop :=
  ∃ x y, a = some x ∧ b = some y ∧ x ≤ y

lemma trapezoidal_step_none (r c : ℝ) (i : ℕ) :
    trapezoidal_step r c i none = none := rfl

lemma foldl_step_none (r c : ℝ) (l : List ℕ) :
    l.foldl (fun val i => trapezoidal_step r c i val) none = none := by
  induction l with
  | nil => rfl
  | cons x xs ih =>
    simp only [List.foldl_cons, trapezoidal_step_none]
    exact ih

lemma trapezoidal_step_zero_r (c : ℝ) (i : ℕ) (s : ℝ) :
    trapezoidal_step 0 c i (some s) = none := by
  simp [trapezoidal_step, pdiv]

lemma num_integral_zero (c : ℝ) : num_integral 0 c = none := by
  unfold num_integral
  rw [show (200 : ℕ) = 199 + 1 from rfl, List.range_succ_eq_map, List.foldl_cons]
  rw [trapezoidal_step_zero_r c 0 0]
  exact foldl_step_none 0 c _

lemma trapezoidal_step_some (r c : ℝ) (hr : 0 < r) (i : ℕ) (s : ℝ) :
    trapezoidal_step r c i (some s) = some (s + trapTerm r c i) := by
  have e1 : r / 200 * (i : ℝ) = (i : ℝ) * r / 200 := by ring
  have e2 : r / 200 * ((i : ℝ) + 1) = ((i : ℝ) + 1) * r / 200 := by ring
  have hxr : ((i : ℝ) + 1) * r / 200 ≠ 0 := by positivity
  simp only [trapezoidal_step, e1, e2, pdiv, trapTerm, integrand, hxr,
    if_false, ite_false]

lemma foldl_step_some (r c : ℝ) (hr : 0 < r) :
    ∀ (l : List ℕ) (s : ℝ),
      l.foldl (fun val i => trapezoidal_step r c i val) (some s)
        = some (l.foldl (fun t i => t + trapTerm r c i) s) := by
  intro l
  induction l with
  | nil => intro s; rfl
  | cons x xs ih =>
    intro s
    simp only [List.foldl_cons, trapezoidal_step_some r c hr x s]
    exact ih _

lemma num_integral_eq_trapSum (r c : ℝ) (hr : 0 < r) :
    num_integral r c = some (trapSum r c) := by
  unfold num_integral trapSum
  exact foldl_step_some r c hr _ 0

lemma integrand_zero (c : ℝ) : integrand c 0 = 0 := if_pos rfl

lemma scaled_integrand_mono (c r1 r2 : ℝ) (hc : 0 < c) (h1 : 0 < r1)
    (h12 : r1 ≤ r2) (k : ℕ) :
    integrand c ((k : ℝ) * r1 / 200) * (r1 / 200)
      ≤ integrand c ((k : ℝ) * r2 / 200) * (r2 / 200) := by
  have h2 : 0 < r2 := lt_of_lt_of_le h1 h12
  rcases Nat.eq_zero_or_pos k with hk | hk
  · subst hk
    simp [integrand_zero]
  · have hk' : (0 : ℝ) < (k : ℝ) := by exact_mod_cast hk
    have hx1 : (0 : ℝ) < (k : ℝ) * r1 / 200 := by positivity
    have hx2 : (0 : ℝ) < (k : ℝ) * r2 / 200 := by positivity
    have e1 : integrand c ((k : ℝ) * r1 / 200) * (r1 / 200)
        = (1 - Real.exp (-c * ((k : ℝ) * r1 / 200) ^ 2)) / (k : ℝ) := by
      rw [integrand, if_neg hx1.ne']
      field_simp
      ring
    have e2 : integrand c ((k : ℝ) * r2 / 200) * (r2 / 200)
        = (1 - Real.exp (-c * ((k : ℝ) * r2 / 200) ^ 2)) / (k : ℝ) := by
      rw [integrand, if_neg hx2.ne']
      field_simp
      ring
    rw [e1, e2]
    have hxle : (k : ℝ) * r1 / 200 ≤ (k : ℝ) * r2 / 200 := by gcongr
    have hsq : ((k : ℝ) * r1 / 200) ^ 2 ≤ ((k : ℝ) * r2 / 200) ^ 2 := by
      nlinarith
    have hE : Real.exp (-c * ((k : ℝ) * r2 / 200) ^ 2)
        ≤ Real.exp (-c * ((k : ℝ) * r1 / 200) ^ 2) := by
      apply Real.exp_le_exp.mpr
      nlinarith
    exact (div_le_div_iff_of_pos_right hk').mpr (by linarith)

lemma trapTerm_mono (c r1 r2 : ℝ) (hc : 0 < c) (h1 : 0 < r1)
    (h12 : r1 ≤ r2) (i : ℕ) : trapTerm r1 c i ≤ trapTerm r2 c i := by
  have hA := scaled_integrand_mono c r1 r2 hc h1 h12 i
  have hB := scaled_integrand_mono c r1 r2 hc h1 h12 (i + 1)
  push_cast at hB
  rw [trapTerm, trapTerm]
  set A1 := integrand c ((i : ℝ) * r1 / 200) with hA1
  set B1 := integrand c (((i : ℝ) + 1) * r1 / 200) with hB1
  set A2 := integrand c ((i : ℝ) * r2 / 200) with hA2
  set B2 := integrand c (((i : ℝ) + 1) * r2 / 200) with hB2
  have e1 : (A1 + B1) / 2 * (r1 / 200)
      = A1 * (r1 / 200) / 2 + B1 * (r1 / 200) / 2 := by ring
  have e2 : (A2 + B2) / 2 * (r2 / 200)
      = A2 * (r2 / 200) / 2 + B2 * (r2 / 200) / 2 := by ring
  rw [e1, e2]
  linarith

lemma foldl_add_mono (g h : ℕ → ℝ) (hgh : ∀ i, g i ≤ h i) :
    ∀ (l : List ℕ) (a b : ℝ), a ≤ b →
      l.foldl (fun s i => s + g i) a ≤ l.foldl (fun s i => s + h i) b := by
  intro l
  induction l with
  | nil => intro a b hab; simpa using hab
  | cons x xs ih =>
    intro a b hab
    simp only [List.foldl_cons]
    exact ih _ _ (by linarith [hgh x])

lemma trapSum_mono (c r1 r2 : ℝ) (hc : 0 < c) (h1 : 0 < r1) (h12 : r1 ≤ r2) :
    trapSum r1 c ≤ trapSum r2 c := by
  unfold trapSum
  exact foldl_add_mono _ _ (trapTerm_mono c r1 r2 hc h1 h12) _ 0 0 le_rfl

/-! ## The batched (array) form of `_num_integral` -/

/-- The accumulator `jnp.zeros_like(r, dtype=float)` seeding the loop of
`Gaussian._num_integral`: one finite `0` per element of `r`. -/
noncomputable def num_integral_init (r : List ℝ) : List (Option ℝ) :=
  r.map fun _ => some 0

/-- `Gaussian._num_integral` on a batched radius array `r` (scalar `c`):
every operation in the loop body is elementwise with `c`, `i` broadcast,
so each `lax.fori_loop` step applies `trapezoidal_step` elementwise. -/
noncomputable def num_integral_vec (r : List ℝ) (c : ℝ) : List (Option ℝ) :=
  (List.range 200).foldl
    (fun val i => List.zipWith (fun rj vj => trapezoidal_step rj c i vj) r val)
    (num_integral_init r)

lemma vec_fold_length (c : ℝ) (r : List ℝ) :
    ∀ (l : List ℕ) (val : List (Option ℝ)), val.length = r.length →
      (l.foldl
        (fun val i => List.zipWith (fun rj vj => trapezoidal_step rj c i vj) r val)
        val).length = r.length := by
  intro l
  induction l with
  | nil => intro val h; exact h
  | cons x xs ih =>
    intro val h
    simp only [List.foldl_cons]
    exact ih _ (by simp [List.length_zipWith, h])

/-! ## The Gaussian profile's closed-form algebra (gaussian.py) -/

/-- The radius floor `self.ds = 0.00001` set in `Gaussian.__init__`. -/
noncomputable def ds : ℝ := 0.00001

/-- `Gaussian._amp2d_to_3d(amp, sigma_x, sigma_y)`:
`amp / (sqrt(pi) * sqrt(sigma_x * sigma_y * 2))`. -/
noncomputable def amp2d_to_3d (amp sigma_x sigma_y : ℝ) : Option ℝ :=
  pdiv amp (Real.sqrt Real.pi * Real.sqrt (sigma_x * sigma_y * 2))

/-- `Gaussian._amp3d_to_2d(amp, sigma_x, sigma_y)`:
`amp * sqrt(pi) * sqrt(sigma_x * sigma_y * 2)` (no division). -/
noncomputable def amp3d_to_2d (amp sigma_x sigma_y : ℝ) : ℝ :=
  amp * Real.sqrt Real.pi * Real.sqrt (sigma_x * sigma_y * 2)

/-- `Gaussian.mass_2d(R, amp, sigma)` with `sigma_x = sigma_y = sigma`.
The source computes `amp2d` by the same expression as `_amp2d_to_3d`,
then `c = 1/(2*sigma_x*sigma_y)` and
`amp2d * 2 * pi * 1.0 / (2 * c) * (1 - exp(-c * R**2))`
(the division by `2*c` applies to the product on its left). -/
noncomputable def mass_2d (R amp sigma : ℝ) : Option ℝ :=
  (amp2d_to_3d amp sigma sigma).bind fun amp2d =>
  (pdiv 1 (2 * sigma * sigma)).bind fun c =>
  (pdiv (amp2d * 2 * Real.pi * 1) (2 * c)).map fun t =>
  t * (1 - Real.exp (-c * R ^ 2))

/-- `Gaussian.alpha_abs(R, amp, sigma)`:
`mass_2d(R, _amp2d_to_3d(amp, sigma, sigma), sigma) / pi / R`. -/
noncomputable def alpha_abs (R amp sigma : ℝ) : Option ℝ :=
  (amp2d_to_3d amp sigma sigma).bind fun amp_density =>
  (mass_2d R amp_density sigma).bind fun m =>
  (pdiv m Real.pi).bind fun t =>
  pdiv t R

/-- `Gaussian.d_alpha_dr(R, amp, sigma_x, sigma_y)`:
`c = 1/(2*sigma_x*sigma_y)`,
`A = _amp2d_to_3d(amp, sigma_x, sigma_y) * sqrt(2/pi*sigma_x*sigma_y)`,
result `1/R**2 * (-1 + (1 + 2*c*R**2)*exp(-c*R**2)) * A`. -/
noncomputable def d_alpha_dr (R amp sigma_x sigma_y : ℝ) : Option ℝ :=
  (pdiv 1 (2 * sigma_x * sigma_y)).bind fun c =>
  (amp2d_to_3d amp sigma_x sigma_y).bind fun a3 =>
  (pdiv 2 Real.pi).bind fun q =>
  (pdiv 1 (R ^ 2)).map fun t =>
  t * (-1 + (1 + 2 * c * R ^ 2) * Real.exp (-c * R ^ 2))
    * (a3 * Real.sqrt (q * sigma_x * sigma_y))

/-- `Gaussian.derivatives(x, y, amp, sigma, center_x, center_y)`:
offsets `x_ , y_`, radius `R = sqrt(x_^2 + y_^2)` clamped by
`R = jnp.where(R <= ds, ds, R)`, then `(alpha/R * x_, alpha/R * y_)`
with `alpha = alpha_abs(R, amp, sigma)`. -/
noncomputable def Gaussian_derivatives (x y amp sigma center_x center_y : ℝ) :
    Option (ℝ × ℝ) :=
  let x_ := x - center_x
  let y_ := y - center_y
  let R0 := Real.sqrt (x_ ^ 2 + y_ ^ 2)
  let R := if R0 ≤ ds then ds else R0
  (alpha_abs R amp sigma).bind fun alpha =>
  (pdiv alpha R).map fun t =>
  (t * x_, t * y_)

/-- `Gaussian.hessian(x, y, amp, sigma, center_x, center_y)`: radius
clamped by `r = jnp.where(r < ds, ds, r)`; with
`d_alpha_dr = -self.d_alpha_dr(r, amp, sigma, sigma)` and
`alpha = alpha_abs(r, amp, sigma)`, the four components are
`f_xx = -(d_alpha_dr/r + alpha/r**2)*x_**2/r + alpha/r`,
`f_yy = -(d_alpha_dr/r + alpha/r**2)*y_**2/r + alpha/r`,
`f_xy = -(d_alpha_dr/r + alpha/r**2)*x_*y_/r`, and the source returns
`(f_xx, f_xy, f_xy, f_yy)` — the same `f_xy` in both mixed slots.
(The source recomputes the common factor `d_alpha_dr/r + alpha/r**2` in
each of the three formula lines; the recomputations are the identical
divisions, bound here once as `t1`, `t2`.) -/
noncomputable def Gaussian_hessian (x y amp sigma center_x center_y : ℝ) :
    Option (ℝ × ℝ × ℝ × ℝ) :=
  let x_ := x - center_x
  let y_ := y - center_y
  let r0 := Real.sqrt (x_ ^ 2 + y_ ^ 2)
  let r := if r0 < ds then ds else r0
  (d_alpha_dr r amp sigma sigma).bind fun dadr0 =>
  let dadr := -dadr0
  (alpha_abs r amp sigma).bind fun alpha =>
  (pdiv dadr r).bind fun t1 =>
  (pdiv alpha (r ^ 2)).bind fun t2 =>
  (pdiv (-(t1 + t2) * x_ ^ 2) r).bind fun t3 =>
  (pdiv alpha r).bind fun t4 =>
  (pdiv (-(t1 + t2) * y_ ^ 2) r).bind fun t5 =>
  (pdiv (-(t1 + t2) * x_ * y_) r).map fun t6 =>
  (t3 + t4, t6, t6, t5 + t4)

/-! ## The SIS profile (sis.py) -/

/-- The names bound at module level in `sis.py`: the dunder metadata, the
two imports `from jax import grad, numpy as np` and
`from lenstronomy... import LensProfileBase`, and the class `SIS`.
Note that `jnp`, `jacfwd` and `jacrev` are NOT bound. -/
def sisModuleGlobals : List String :=
  ["__author__", "grad", "np", "LensProfileBase", "__all__", "SIS"]

/-- Outcome of evaluating a Python expression: a value, or an uncaught
`NameError` for the first unbound name the interpreter hits. -/
inductive PyResult (α : Type) where
  | ok (val : α)
  | nameError (missing : String)

/-- Functorial action on the `ok` value; a `nameError` is left as is. -/
def PyResult.map {α β : Type} (f : α → β) : PyResult α → PyResult β
  | .ok a => .ok (f a)
  | .nameError n => .nameError n

/-- `SIS.function(x, y, theta_E, center_x, center_y)`: the shifts are
plain arithmetic, but `f_ = theta_E * jnp.sqrt(...)` looks up `jnp`,
which is unbound in the module (the import is `numpy as np`), so the
call raises `NameError: jnp` before producing the value
`theta_E * sqrt(x_shift^2 + y_shift^2)` of the `ok` branch. -/
noncomputable def SIS_function (x y theta_E center_x center_y : ℝ) : PyResult ℝ :=
  let x_shift := x - center_x
  let y_shift := y - center_y
  if "jnp" ∈ sisModuleGlobals then
    .ok (theta_E * Real.sqrt (x_shift * x_shift + y_shift * y_shift))
  else .nameError "jnp"

/-- `SIS.derivatives(x, y, theta_E, center_x, center_y)` calls
`grad(self.function, argnums=(0, 1))(x, y, ...)`; evaluating the traced
`self.function` raises the same `NameError` as `SIS_function`.  The `ok`
branch models the gradient the external autodiff engine would return for
`theta_E * sqrt(x_^2 + y_^2)` — it is unreachable. -/
noncomputable def SIS_derivatives (x y theta_E center_x center_y : ℝ) :
    PyResult (ℝ × ℝ) :=
  match SIS_function x y theta_E center_x center_y with
  | .nameError n => .nameError n
  | .ok _ =>
    let x_ := x - center_x
    let y_ := y - center_y
    let r := Real.sqrt (x_ ^ 2 + y_ ^ 2)
    .ok (theta_E * x_ / r, theta_E * y_ / r)

/-- `SIS.hessian(x, y, theta_E, center_x, center_y)` evaluates
`jacfwd(jacrev(self.function, ...), ...)(x, y, ...)`: the interpreter
first looks up `jacfwd` (unbound — `NameError: jacfwd`), would then look
up `jacrev` (also unbound), and even with both bound the trace of
`self.function` would raise `NameError: jnp`.  The deepest branch models
the analytic Hessian of `theta_E * sqrt(x_^2 + y_^2)` and mirrors the
source's `return f_xx, f_xy, f_xy, f_yy`, which places the same `f_xy`
value in both mixed slots — it is unreachable. -/
noncomputable def SIS_hessian (x y theta_E center_x center_y : ℝ) :
    PyResult (ℝ × ℝ × ℝ × ℝ) :=
  if "jacfwd" ∈ sisModuleGlobals then
    if "jacrev" ∈ sisModuleGlobals then
      match SIS_function x y theta_E center_x center_y with
      | .nameError n => .nameError n
      | .ok _ =>
        let x_ := x - center_x
        let y_ := y - center_y
        let r := Real.sqrt (x_ ^ 2 + y_ ^ 2)
        let f_xx := theta_E * y_ ^ 2 / r ^ 3
        let f_xy := -(theta_E * x_ * y_) / r ^ 3
        let f_yy := theta_E * x_ ^ 2 / r ^ 3
        .ok (f_xx, f_xy, f_xy, f_yy)
    else .nameError "jacrev"
  else .nameError "jacfwd"

/-- `SIS.rho2theta(rho0)`: `theta_E = np.pi * 2 * rho0`. -/
noncomputable def rho2theta (rho0 : ℝ) : ℝ := Real.pi * 2 * rho0

/-- `SIS.theta2rho(theta_E)`: `fac1 = np.pi * 2; rho0 = theta_E / fac1`. -/
noncomputable def theta2rho (theta_E : ℝ) : Option ℝ :=
  pdiv theta_E (Real.pi * 2)

/-! ## Helper lemmas about the SIS model -/

lemma SIS_function_err (x y theta_E cx cy : ℝ) :
    SIS_function x y theta_E cx cy = PyResult.nameError "jnp" := by
  simp only [SIS_function]
  rw [if_neg (by decide)]

lemma SIS_derivatives_err (x y theta_E cx cy : ℝ) :
    SIS_derivatives x y theta_E cx cy = PyResult.nameError "jnp" := by
  simp only [SIS_derivatives, SIS_function_err]

lemma SIS_hessian_err (x y theta_E cx cy : ℝ) :
    SIS_hessian x y theta_E cx cy = PyResult.nameError "jacfwd" := by
  simp only [SIS_hessian]
  rw [if_neg (by decide)]

/-! ## Helper lemmas about the Gaussian model -/

lemma ds_pos : (0 : ℝ) < ds := by norm_num [ds]

lemma amp2d_to_3d_some (amp sigma_x sigma_y : ℝ) (hx : 0 < sigma_x)
    (hy : 0 < sigma_y) : ∃ v, amp2d_to_3d amp sigma_x sigma_y = some v := by
  have h : Real.sqrt Real.pi * Real.sqrt (sigma_x * sigma_y * 2) ≠ 0 := by
    positivity
  exact ⟨_, pdiv_of_ne _ h⟩

lemma mass_2d_some (R amp sigma : ℝ) (hs : 0 < sigma) :
    ∃ v, mass_2d R amp sigma = some v := by
  have h1 : Real.sqrt Real.pi * Real.sqrt (sigma * sigma * 2) ≠ 0 := by
    positivity
  have h2 : (2 : ℝ) * sigma * sigma ≠ 0 := by positivity
  have h3 : (2 : ℝ) * (1 / (2 * sigma * sigma)) ≠ 0 := by positivity
  rw [← Option.isSome_iff_exists]
  simp only [mass_2d, amp2d_to_3d]
  rw [pdiv_of_ne _ h1, Option.some_bind, pdiv_of_ne _ h2, Option.some_bind,
    pdiv_of_ne _ h3, Option.map_some', Option.isSome_some]

lemma alpha_abs_some (R amp sigma : ℝ) (hR : R ≠ 0) (hs : 0 < sigma) :
    ∃ v, alpha_abs R amp sigma = some v := by
  obtain ⟨ad, had⟩ := amp2d_to_3d_some amp sigma sigma hs hs
  obtain ⟨m, hm⟩ := mass_2d_some R ad sigma hs
  rw [← Option.isSome_iff_exists]
  simp only [alpha_abs]
  rw [had, Option.some_bind, hm, Option.some_bind,
    pdiv_of_ne _ Real.pi_ne_zero, Option.some_bind, pdiv_of_ne _ hR,
    Option.isSome_some]

lemma d_alpha_dr_some (R amp sigma_x sigma_y : ℝ) (hR : R ≠ 0)
    (hx : 0 < sigma_x) (hy : 0 < sigma_y) :
    ∃ v, d_alpha_dr R amp sigma_x sigma_y = some v := by
  have h1 : (2 : ℝ) * sigma_x * sigma_y ≠ 0 := by positivity
  obtain ⟨a3, ha3⟩ := amp2d_to_3d_some amp sigma_x sigma_y hx hy
  have hR2 : R ^ 2 ≠ 0 := pow_ne_zero 2 hR
  rw [← Option.isSome_iff_exists]
  simp only [d_alpha_dr]
  rw [pdiv_of_ne _ h1, Option.some_bind, ha3, Option.some_bind,
    pdiv_of_ne _ Real.pi_ne_zero, Option.some_bind, pdiv_of_ne _ hR2,
    Option.map_some', Option.isSome_some]

lemma sqrt_center_zero : Real.sqrt ((0 : ℝ) ^ 2 + 0 ^ 2) = 0 := by
  simp

lemma Gaussian_derivatives_center (amp sigma cx cy : ℝ) (hs : 0 < sigma) :
    Gaussian_derivatives cx cy amp sigma cx cy = some (0, 0) := by
  obtain ⟨a, ha⟩ := alpha_abs_some ds amp sigma ds_pos.ne' hs
  simp only [Gaussian_derivatives, sub_self, sqrt_center_zero]
  rw [if_pos ds_pos.le, ha, Option.some_bind, pdiv_of_ne a ds_pos.ne',
    Option.map_some']
  simp

lemma Gaussian_hessian_center_some (amp sigma cx cy : ℝ) (hs : 0 < sigma) :
    ∃ t, Gaussian_hessian cx cy amp sigma cx cy = some t := by
  obtain ⟨dv, hdv⟩ := d_alpha_dr_some ds amp sigma sigma ds_pos.ne' hs hs
  obtain ⟨a, ha⟩ := alpha_abs_some ds amp sigma ds_pos.ne' hs
  have hds2 : ds ^ 2 ≠ 0 := pow_ne_zero 2 ds_pos.ne'
  rw [← Option.isSome_iff_exists]
  simp only [Gaussian_hessian, sub_self, sqrt_center_zero]
  rw [if_pos ds_pos, hdv, Option.some_bind, ha, Option.some_bind,
    pdiv_of_ne _ ds_pos.ne', Option.some_bind, pdiv_of_ne _ hds2,
    Option.some_bind, pdiv_of_ne _ ds_pos.ne', Option.some_bind,
    pdiv_of_ne _ ds_pos.ne', Option.some_bind, Option.some_bind,
    pdiv_of_ne _ ds_pos.ne', Option.map_some', Option.isSome_some]

lemma Gaussian_hessian_mixed (x y amp sigma cx cy : ℝ) :
    (Gaussian_hessian x y amp sigma cx cy).map (fun t => t.2.1)
      = (Gaussian_hessian x y amp sigma cx cy).map (fun t => t.2.2.1) := by
  apply Option.map_congr
  intro t ht
  simp only [Option.mem_def, Gaussian_hessian, Option.bind_eq_some,
    Option.map_eq_some'] at ht
  obtain ⟨d, -, a, -, t1, -, t2, -, t3, -, t4, -, t5, -, t6, -, ht⟩ := ht
  rw [← ht]

/-! ## Claim theorems -/

/-- C1: claim says `Gaussian._num_integral(r=0, c)` returns exactly 0 for
every `c > 0`.  The code disagrees: at `r = 0` every loop step has
`x_right = 0`, so `y_right = (1 - exp(0))/0 = 0/0` is NaN, the NaN
propagates through the accumulator, and the function returns NaN (`none`
in this model), not 0.  This contradicts the function's own docstring
(the integral from 0 to 0 is 0) — recorded as a code bug. -/
theorem num_integral_zero_radius_not_finite (c : ℝ) :
    num_integral 0 c = none :=
  num_integral_zero c

/-- C2: for every `r > 0` and `c > 0`, `Gaussian._num_integral(r, c)` is
exactly the composite trapezoidal sum with `N = 200` subintervals — the
left-to-right fold, from accumulator 0, of the terms
`(f(i*r/N) + f((i+1)*r/N))/2 * (r/N)` with `f(x) = (1 - exp(-c x^2))/x`
and `f(0)` replaced by the limit 0. -/
theorem num_integral_eq_trapezoidal_sum (r c : ℝ) (hr : 0 < r) (hc : 0 < c) :
    num_integral r c = some (trapSum r c) :=
  num_integral_eq_trapSum r c hr

/-- Witness for C2 at `r = 1`, `c = 1`. -/
theorem num_integral_eq_trapezoidal_sum_witness :
    num_integral 1 1 = some (trapSum 1 1) :=
  num_integral_eq_trapezoidal_sum 1 1 (by norm_num) (by norm_num)

/-- C3: every call to `SIS.function` raises `NameError` on the unbound
name `jnp` (the module imports `jax.numpy` as `np`); consequently
`SIS.derivatives` (which differentiates `SIS.function`) fails with the
same `NameError`, and `SIS.hessian` fails on the unbound `jacfwd`; no
SIS potential/derivative/hessian value is ever returned. -/
theorem SIS_every_call_fails (x y theta_E cx cy : ℝ) :
    SIS_function x y theta_E cx cy = PyResult.nameError "jnp"
    ∧ SIS_derivatives x y theta_E cx cy = PyResult.nameError "jnp"
    ∧ SIS_hessian x y theta_E cx cy = PyResult.nameError "jacfwd" :=
  ⟨SIS_function_err x y theta_E cx cy, SIS_derivatives_err x y theta_E cx cy,
    SIS_hessian_err x y theta_E cx cy⟩

/-- Counterexample to C4 as stated: for the SIS lens-mass model,
`derivatives` and `hessian` evaluated at the lens center `x = y = 0`
produce no values at all — they fail with `NameError` (and `sis.py`
contains no radius-floor clamp anywhere) — so the claimed guarantee
"each lens-mass model's derivatives/hessian at the center produce
finite values via the 1e-5 radius floor" is false for SIS. -/
theorem sis_near_origin_cex :
    SIS_derivatives 0 0 1 0 0 = PyResult.nameError "jnp"
    ∧ SIS_hessian 0 0 1 0 0 = PyResult.nameError "jacfwd" :=
  ⟨SIS_derivatives_err 0 0 1 0 0, SIS_hessian_err 0 0 1 0 0⟩

/-- C4 (amended): for the Gaussian lens-mass model, `derivatives` and
`hessian` at the lens center `x = center_x, y = center_y` produce finite
values (no NaN/Inf) for every amp and every `sigma > 0`, because the
radius is clamped to the floor `ds = 1e-5` before every division by it;
the SIS model provides no such guarantee — its `derivatives` and
`hessian` raise `NameError` on every input and perform no clamping. -/
theorem near_origin_guarded (amp sigma cx cy x y theta_E cx' cy' : ℝ)
    (hs : 0 < sigma) :
    (∃ p, Gaussian_derivatives cx cy amp sigma cx cy = some p)
    ∧ (∃ t, Gaussian_hessian cx cy amp sigma cx cy = some t)
    ∧ SIS_derivatives x y theta_E cx' cy' = PyResult.nameError "jnp"
    ∧ SIS_hessian x y theta_E cx' cy' = PyResult.nameError "jacfwd" :=
  ⟨⟨(0, 0), Gaussian_derivatives_center amp sigma cx cy hs⟩,
    Gaussian_hessian_center_some amp sigma cx cy hs,
    SIS_derivatives_err x y theta_E cx' cy',
    SIS_hessian_err x y theta_E cx' cy'⟩

/-- Witness for C4 (amended) at `amp = 1`, `sigma = 1`, center `(0,0)`. -/
theorem near_origin_guarded_witness :
    (0 : ℝ) < 1
    ∧ ((∃ p, Gaussian_derivatives 0 0 1 1 0 0 = some p)
      ∧ (∃ t, Gaussian_hessian 0 0 1 1 0 0 = some t)
      ∧ SIS_derivatives 0 0 1 0 0 = PyResult.nameError "jnp"
      ∧ SIS_hessian 0 0 1 0 0 = PyResult.nameError "jacfwd") :=
  ⟨one_pos, near_origin_guarded 1 1 0 0 0 0 1 0 0 one_pos⟩

/-- C5: for every input point and parameter set, the hessian of each
lens-mass model carries the same value in its two mixed slots:
`Gaussian.hessian` returns `(f_xx, f_xy, f_xy, f_yy)` — the identical
`f_xy` in positions 2 and 3 — and `SIS.hessian`'s return statement
likewise places one `f_xy` value in both mixed slots (every SIS call
fails with the same `NameError` on both sides, so the projections of its
result agree as well). -/
theorem hessian_mixed_slots_equal (x y amp sigma cx cy theta_E : ℝ) :
    (Gaussian_hessian x y amp sigma cx cy).map (fun t => t.2.1)
      = (Gaussian_hessian x y amp sigma cx cy).map (fun t => t.2.2.1)
    ∧ (SIS_hessian x y theta_E cx cy).map (fun t => t.2.1)
      = (SIS_hessian x y theta_E cx cy).map (fun t => t.2.2.1) :=
  ⟨Gaussian_hessian_mixed x y amp sigma cx cy,
    by simp [SIS_hessian_err, PyResult.map]⟩

/-- Counterexample to C6 as stated: the claim quantifies over all
`0 ≤ r1 ≤ r2`, but at `r1 = 0` the code returns NaN (see C1), and a NaN
never compares `≤` anything, so monotonicity fails at the left end of
the claimed range. -/
theorem num_integral_not_monotone_from_zero :
    ¬ optLe (num_integral 0 1) (num_integral 1 1) := by
  rintro ⟨u, v, hu, -, -⟩
  rw [num_integral_zero 1] at hu
  exact Option.noConfusion hu

/-- C6 (amended): for every fixed `c > 0`, `Gaussian._num_integral` is
non-decreasing in `r` on `0 < r1 ≤ r2`: both evaluations are finite and
the values are ordered.  (At `r1 = 0` the code returns NaN instead of
the claimed 0, so the claim's `r ≥ 0` range must exclude 0.) -/
theorem num_integral_monotone_pos (c r1 r2 : ℝ) (hc : 0 < c) (h1 : 0 < r1)
    (h12 : r1 ≤ r2) : optLe (num_integral r1 c) (num_integral r2 c) :=
  ⟨trapSum r1 c, trapSum r2 c, num_integral_eq_trapSum r1 c h1,
    num_integral_eq_trapSum r2 c (lt_of_lt_of_le h1 h12),
    trapSum_mono c r1 r2 hc h1 h12⟩

/-- Witness for C6 (amended) at `c = 1`, `r1 = 1`, `r2 = 2`. -/
theorem num_integral_monotone_pos_witness :
    optLe (num_integral 1 1) (num_integral 2 1) :=
  num_integral_monotone_pos 1 1 2 (by norm_num) (by norm_num) (by norm_num)

/-- C7: the amplitude conversions round-trip exactly in real arithmetic:
for `a > 0` and `sigma_x, sigma_y > 0`,
`_amp3d_to_2d(_amp2d_to_3d(a, sx, sy), sx, sy) = a`. -/
theorem amp_conversion_roundtrip (a sigma_x sigma_y : ℝ) (ha : 0 < a)
    (hx : 0 < sigma_x) (hy : 0 < sigma_y) :
    (amp2d_to_3d a sigma_x sigma_y).map
      (fun v => amp3d_to_2d v sigma_x sigma_y) = some a := by
  have h1 : Real.sqrt Real.pi ≠ 0 := by positivity
  have h2 : Real.sqrt (sigma_x * sigma_y * 2) ≠ 0 := by positivity
  simp only [amp2d_to_3d]
  rw [pdiv_of_ne _ (mul_ne_zero h1 h2), Option.map_some']
  simp only [amp3d_to_2d]
  congr 1
  field_simp
  ring

/-- Witness for C7 at `a = sigma_x = sigma_y = 1`. -/
theorem amp_conversion_roundtrip_witness :
    (amp2d_to_3d 1 1 1).map (fun v => amp3d_to_2d v 1 1) = some 1 :=
  amp_conversion_roundtrip 1 1 1 one_pos one_pos one_pos

/-- C8: `Gaussian._num_integral` on a batched radius array returns an
array of exactly the same shape (length) as `r`, and the running
accumulator is seeded with zeros of that same shape
(`jnp.zeros_like(r, dtype=float)`). -/
theorem num_integral_vec_shape (r : List ℝ) (c : ℝ) :
    (num_integral_vec r c).length = r.length
    ∧ num_integral_init r = List.replicate r.length (some 0) := by
  constructor
  · exact vec_fold_length c r _ _ (by simp [num_integral_init])
  · simp [num_integral_init, List.map_const']

/-- C9: for every amp and every `sigma > 0`, `Gaussian.derivatives`
evaluated exactly at the lens center returns exactly `(0, 0)`: the
clamped radius `ds` makes `alpha_abs` finite and both components are
that finite value times the zero offsets. -/
theorem gaussian_derivatives_center_eq_zero (amp sigma cx cy : ℝ)
    (hs : 0 < sigma) :
    Gaussian_derivatives cx cy amp sigma cx cy = some (0, 0) :=
  Gaussian_derivatives_center amp sigma cx cy hs

/-- Witness for C9 at `amp = 1`, `sigma = 1`, center `(0, 0)`. -/
theorem gaussian_derivatives_center_eq_zero_witness :
    Gaussian_derivatives 0 0 1 1 0 0 = some (0, 0) :=
  gaussian_derivatives_center_eq_zero 1 1 0 0 one_pos

/-- C10: the SIS density-parameter conversions round-trip exactly:
`rho2theta(theta2rho(theta_E)) = theta_E` and
`theta2rho(rho2theta(rho0)) = rho0` (both are multiplication/division by
the same nonzero constant `2*pi`). -/
theorem sis_density_param_roundtrip (theta_E rho0 : ℝ) :
    (theta2rho theta_E).map rho2theta = some theta_E
    ∧ theta2rho (rho2theta rho0) = some rho0 := by
  have h : Real.pi * 2 ≠ 0 := by positivity
  constructor
  · simp only [theta2rho]
    rw [pdiv_of_ne _ h, Option.map_some']
    simp only [rho2theta]
    congr 1
    field_simp
  · simp only [theta2rho, rho2theta]
    rw [pdiv_of_ne _ h]
    congr 1
    field_simp
